import Mathlib

/-!
Verification of the sync core of jonhadfield/sn-persist (snpersist.go).

The Go code keeps a local replica of encrypted records in an embedded
storm/bbolt store and reconciles it with the remote Standard Notes service
via gosn.Sync.  The embedding below models:

* `Item` / `SyncToken` buckets of the storm DB as plain lists (`DB`);
* the storm operations snpersist uses (`Save`, `Find("Dirty", true, _)`,
  `All`, `UpdateField`) as pure functions on `DB`;
* the external collaborators (gosn session validation, gosn.Sync network
  exchange, storm.Open) as parameters;
* `Sync` / `initialiseDB` (snpersist.go:375-496 / 328-373) as pure
  functions from the inputs plus those parameters to a result that carries
  the returned `SyncOutput`, the returned error, and the post-state of the
  store that was operated on.

`time.Time` is modelled as a `Nat`, with `0` the Go zero value.
-/

namespace SnPersist

/-- Local persisted record (Go struct `Item`, snpersist.go:242-252). -/
structure Item where
  uuid : String
  content : String
  contentType : String
  encItemKey : String
  deleted : Bool
  createdAt : String
  updatedAt : String
  dirty : Bool
  dirtiedDate : Nat
deriving DecidableEq

/-- Wire record (gosn.EncryptedItem): exactly the fields snpersist copies. -/
structure EncryptedItem where
  uuid : String
  content : String
  contentType : String
  encItemKey : String
  deleted : Bool
  createdAt : String
  updatedAt : String
deriving DecidableEq

/-- State of a storm DB as snpersist uses it: the `Item` bucket (records
keyed by `UUID`) and the `SyncToken` bucket.  A stored `SyncToken` record is
keyed by its own string value (storm tag `id,unique` on the `SyncToken`
field, snpersist.go:254-256), so that bucket is a list of distinct token
strings. -/
structure DB where
  items : List Item
  tokens : List String
deriving DecidableEq

/-- storm `db.Save(&item)`: insert-or-replace keyed by the id field
(`UUID`). -/
def DB.saveItem (db : DB) (it : Item) : DB :=
  if db.items.any (fun x => x.uuid == it.uuid) then
    { db with items := db.items.map (fun x => if x.uuid == it.uuid then it else x) }
  else
    { db with items := db.items ++ [it] }

/-- storm `db.Save(&SyncToken{...})`: the stored `SyncToken` string is the
primary key, so saving a token value that is not yet present adds a new
record instead of replacing the existing one. -/
def DB.saveToken (db : DB) (t : String) : DB :=
  if db.tokens.contains t then db else { db with tokens := db.tokens ++ [t] }

/-- storm `db.Find("Dirty", true, &dirty)` (snpersist.go:399-405); an empty
result ("not found") is treated as an empty batch by `Sync`. -/
def DB.findDirty (db : DB) : List Item :=
  db.items.filter (fun x => x.dirty)

/-- storm `db.UpdateField(&Item{UUID: u}, "Dirty", b)` (snpersist.go:455). -/
def DB.updateDirty (db : DB) (u : String) (b : Bool) : DB :=
  { db with items := db.items.map (fun x => if x.uuid == u then { x with dirty := b } else x) }

/-- storm `db.UpdateField(&Item{UUID: u}, "DirtiedDate", d)`
(snpersist.go:459). -/
def DB.updateDirtiedDate (db : DB) (u : String) (d : Nat) : DB :=
  { db with items := db.items.map (fun x => if x.uuid == u then { x with dirtiedDate := d } else x) }

/-- Lookup of the stored record with a given UUID. -/
def DB.get (db : DB) (u : String) : Option Item :=
  db.items.find? (fun x => x.uuid == u)

/-- gosn.Session is an external collaborator; snpersist only observes
`Session.Valid()`. -/
structure Session where
  valid : Bool
deriving DecidableEq

/-- The gosn.SyncInput snpersist builds (session, items to push, sync
token). -/
structure GosnSyncInput where
  session : Session
  items : List EncryptedItem
  syncToken : String
deriving DecidableEq

/-- The gosn.SyncOutput fields snpersist reads: `Items` (pulled),
`SavedItems` (acknowledged), `Unsaved` (unacknowledged), and the new
continuation token. -/
structure GosnSyncOutput where
  items : List EncryptedItem
  savedItems : List EncryptedItem
  unsaved : List EncryptedItem
  syncToken : String
deriving DecidableEq

/-- The remote exchange (gosn.Sync), an external collaborator; `none` is a
remote (network/protocol) failure, which is opaque to snpersist. -/
abbrev Exchange := GosnSyncInput → Option GosnSyncOutput

/-- SyncInput (snpersist.go:278-282).  `db` is the state reachable through
the `DB` pointer (`none` for a nil pointer). -/
structure SyncInput where
  session : Session
  db : Option DB
  dbPath : String

/-- SyncOutput (snpersist.go:284-288).  `db` is the state reachable through
the returned `DB` pointer (`none` for a nil pointer). -/
structure SyncOutput where
  items : List EncryptedItem
  savedItems : List EncryptedItem
  unsaved : List EncryptedItem
  db : Option DB
deriving DecidableEq

/-- The Go zero value of `SyncOutput`. -/
def SyncOutput.empty : SyncOutput :=
  { items := [], savedItems := [], unsaved := [], db := none }

/-- The errors `Sync` can return in the model.  Store I/O in the model is
total, so storm-level I/O failures do not arise; the remote error is
opaque. -/
inductive SnErr where
  | invalidSession
  | dbAndPathProvided
  | dbOrPathRequired
  | remoteError
deriving DecidableEq

/-- Which errors are configuration errors (caller misused the API) in the
spec's taxonomy. -/
def SnErr.isConfigurationError : SnErr → Bool
  | .dbAndPathProvided => true
  | .dbOrPathRequired => true
  | _ => false

/-- Result of one `Sync` call: the returned `SyncOutput`, the returned
error, and the post-state of the store that was operated on (`none` when no
store was touched, i.e. the nil-DB/empty-path error). -/
structure SyncResult where
  output : SyncOutput
  err : Option SnErr
  store : Option DB
deriving DecidableEq

/-- The dirty-to-wire conversion in the push-batch loop
(snpersist.go:426-437): local-only fields are not sent. -/
def itemToEncrypted (d : Item) : EncryptedItem :=
  { uuid := d.uuid, content := d.content, contentType := d.contentType,
    encItemKey := d.encItemKey, deleted := d.deleted,
    createdAt := d.createdAt, updatedAt := d.updatedAt }

/-- The wire-to-record conversion used when persisting pulled items
(snpersist.go:471-480 and 348-357): `Dirty` and `DirtiedDate` are not set
in the Go struct literal, so they take their zero values. -/
def encryptedToItem (i : EncryptedItem) : Item :=
  { uuid := i.uuid, content := i.content, contentType := i.contentType,
    encItemKey := i.encItemKey, deleted := i.deleted,
    createdAt := i.createdAt, updatedAt := i.updatedAt,
    dirty := false, dirtiedDate := 0 }

/-- ConvertItemsToPersistItems (snpersist.go:312-326): the public converter
also leaves `Dirty`/`DirtiedDate` at their zero values. -/
def ConvertItemsToPersistItems (items : List EncryptedItem) : List Item :=
  items.map (fun i =>
    { uuid := i.uuid, content := i.content, contentType := i.contentType,
      encItemKey := i.encItemKey, deleted := i.deleted,
      createdAt := i.createdAt, updatedAt := i.updatedAt,
      dirty := false, dirtiedDate := 0 })

/-- The token `Sync` uses for the exchange (snpersist.go:417-423): the
stored token when exactly one is stored, the empty string otherwise (zero
or more than one). -/
def tokenOf (tokens : List String) : String :=
  match tokens with
  | [t] => t
  | _ => ""

/-- The gosn.SyncInput built by the reconcile path (snpersist.go:440-444). -/
def reconcileGsi (s : Session) (db : DB) : GosnSyncInput :=
  { session := s, items := db.findDirty.map itemToEncrypted, syncToken := tokenOf db.tokens }

/-- The gosn.SyncInput built by `initialiseDB` (snpersist.go:336-338): only
the session is set; items and token are zero values. -/
def bootstrapGsi (s : Session) : GosnSyncInput :=
  { session := s, items := [], syncToken := "" }

/-- The dirty-clearing loop (snpersist.go:454-463): for every record of the
push batch, `Dirty` is set to false and `DirtiedDate` to the zero value. -/
def clearDirty (db : DB) (dirty : List Item) : DB :=
  dirty.foldl (fun d x => (d.updateDirty x.uuid false).updateDirtiedDate x.uuid 0) db

/-- The pulled-items loop (snpersist.go:471-485 and 348-362): every pulled
item is saved (insert-or-replace by UUID) with zero `Dirty`/`DirtiedDate`. -/
def applyPulled (db : DB) (pulled : List EncryptedItem) : DB :=
  pulled.foldl (fun d i => d.saveItem (encryptedToItem i)) db

/-- initialiseDB (snpersist.go:328-373): given the store content found at
the path (`opened`), perform a full pull with no token, save every pulled
item, save the returned token.  On exchange failure the opened store is
returned untouched together with the error. -/
def initialiseDB (exchange : Exchange) (session : Session) (opened : DB) : DB × Option SnErr :=
  match exchange (bootstrapGsi session) with
  | none => (opened, some SnErr.remoteError)
  | some gSO => ((applyPulled opened gSO.items).saveToken gSO.syncToken, none)

/-- The reconcile path of `Sync` for an existing handle
(snpersist.go:398-496).  Order as in the source: read dirty batch and
tokens, one exchange, clear dirty flags of the whole batch, persist pulled
items, persist the new token.

Note on snpersist.go:418-420: when more than one sync token is stored the
Go code assigns an error to `err` but does not return; `err` is then
overwritten by the `gosn.Sync` call result, so the check has no effect on
control flow or on the returned error, and the token used is `""` unless
exactly one is stored.  The model reflects that behaviour. -/
def reconcile (exchange : Exchange) (session : Session) (db : DB) : SyncResult :=
  match exchange (reconcileGsi session db) with
  | none => { output := SyncOutput.empty, err := some SnErr.remoteError, store := some db }
  | some gSO =>
      { output := { items := gSO.items, savedItems := gSO.savedItems, unsaved := gSO.unsaved,
                    db := some ((applyPulled (clearDirty db db.findDirty) gSO.items).saveToken gSO.syncToken) },
        err := none,
        store := some ((applyPulled (clearDirty db db.findDirty) gSO.items).saveToken gSO.syncToken) }

/-- Sync (snpersist.go:375-496).  `openStore` gives the store content found
at a path (storm.Open; open failures are outside the model). -/
def Sync (openStore : String → DB) (exchange : Exchange) (si : SyncInput) : SyncResult :=
  if si.session.valid = false then
    { output := SyncOutput.empty, err := some SnErr.invalidSession, store := si.db }
  else if si.db.isSome = true ∧ si.dbPath ≠ "" then
    { output := SyncOutput.empty, err := some SnErr.dbAndPathProvided, store := si.db }
  else
    match si.db with
    | none =>
        if si.dbPath = "" then
          { output := SyncOutput.empty, err := some SnErr.dbOrPathRequired, store := none }
        else
          { output := { SyncOutput.empty with db := some (initialiseDB exchange si.session (openStore si.dbPath)).1 },
            err := (initialiseDB exchange si.session (openStore si.dbPath)).2,
            store := some (initialiseDB exchange si.session (openStore si.dbPath)).1 }
    | some db => reconcile exchange si.session db

/-- The dirty-flag/date invariant of the spec: a clean record has a zero
`DirtiedDate`. -/
def DB.cleanInv (db : DB) : Prop :=
  ∀ it ∈ db.items, it.dirty = false → it.dirtiedDate = 0

/-! Helper lemmas about the store operations. -/

theorem saveToken_items (db : DB) (t : String) : (db.saveToken t).items = db.items := by
  unfold DB.saveToken
  split <;> rfl

theorem saveToken_get (db : DB) (t u : String) : (db.saveToken t).get u = db.get u := by
  unfold DB.get
  rw [saveToken_items]

theorem find_replace_self (l : List Item) (it : Item)
    (h : l.any (fun x => x.uuid == it.uuid) = true) :
    (l.map (fun x => if x.uuid == it.uuid then it else x)).find? (fun x => x.uuid == it.uuid)
      = some it := by
  induction l with
  | nil => simp at h
  | cons a l ih =>
    rw [List.map_cons]
    by_cases ha : a.uuid = it.uuid
    · rw [if_pos (by simp [ha]), List.find?_cons_of_pos _ (by simp)]
    · rw [if_neg (by simp [ha]), List.find?_cons_of_neg _ (by simp [ha])]
      exact ih (by simpa [ha] using h)

theorem find_append_self (l : List Item) (it : Item)
    (h : l.any (fun x => x.uuid == it.uuid) = false) :
    (l ++ [it]).find? (fun x => x.uuid == it.uuid) = some it := by
  induction l with
  | nil =>
    rw [List.nil_append]
    exact List.find?_cons_of_pos _ (by simp)
  | cons a l ih =>
    simp only [List.any_cons, Bool.or_eq_false_iff] at h
    rw [List.cons_append, List.find?_cons_of_neg _ (by simp [h.1])]
    exact ih h.2

theorem DB.saveItem_get_self (db : DB) (it : Item) :
    (db.saveItem it).get it.uuid = some it := by
  unfold DB.saveItem DB.get
  split
  · exact find_replace_self db.items it (by assumption)
  · rename_i h
    exact find_append_self db.items it (by simpa using h)

theorem find_replace_other (l : List Item) (it : Item) (u : String) (h : u ≠ it.uuid) :
    (l.map (fun x => if x.uuid == it.uuid then it else x)).find? (fun x => x.uuid == u)
      = l.find? (fun x => x.uuid == u) := by
  induction l with
  | nil => rfl
  | cons a l ih =>
    rw [List.map_cons]
    by_cases ha : a.uuid = it.uuid
    · rw [if_pos (by simp [ha]),
          List.find?_cons_of_neg _ (by simp [Ne.symm h]),
          List.find?_cons_of_neg _ (by simp [ha, Ne.symm h])]
      exact ih
    · rw [if_neg (by simp [ha])]
      by_cases hu : a.uuid = u
      · rw [List.find?_cons_of_pos _ (by simp [hu]), List.find?_cons_of_pos _ (by simp [hu])]
      · rw [List.find?_cons_of_neg _ (by simp [hu]), List.find?_cons_of_neg _ (by simp [hu])]
        exact ih

theorem find_append_other (l : List Item) (it : Item) (u : String) (h : u ≠ it.uuid) :
    (l ++ [it]).find? (fun x => x.uuid == u) = l.find? (fun x => x.uuid == u) := by
  induction l with
  | nil =>
    rw [List.nil_append, List.find?_cons_of_neg _ (by simp [Ne.symm h])]
  | cons a l ih =>
    by_cases hu : a.uuid = u
    · rw [List.cons_append, List.find?_cons_of_pos _ (by simp [hu]),
          List.find?_cons_of_pos _ (by simp [hu])]
    · rw [List.cons_append, List.find?_cons_of_neg _ (by simp [hu]),
          List.find?_cons_of_neg _ (by simp [hu])]
      exact ih

theorem DB.saveItem_get_other (db : DB) (it : Item) (u : String) (h : u ≠ it.uuid) :
    (db.saveItem it).get u = db.get u := by
  unfold DB.saveItem DB.get
  split
  · exact find_replace_other db.items it u h
  · exact find_append_other db.items it u h

theorem DB.saveItem_forall (db : DB) (it : Item) (P : Item → Prop)
    (h1 : ∀ x ∈ db.items, P x) (h2 : P it) :
    ∀ x ∈ (db.saveItem it).items, P x := by
  unfold DB.saveItem
  split <;> intro x hx
  · rcases List.mem_map.mp hx with ⟨y, hy, rfl⟩
    split
    · exact h2
    · exact h1 y hy
  · rcases List.mem_append.mp hx with hmem | hmem
    · exact h1 x hmem
    · rw [List.mem_singleton.mp hmem]
      exact h2

theorem applyPulled_forall (ps : List EncryptedItem) (db : DB) (P : Item → Prop)
    (h1 : ∀ x ∈ db.items, P x) (h2 : ∀ i ∈ ps, P (encryptedToItem i)) :
    ∀ x ∈ (applyPulled db ps).items, P x := by
  induction ps generalizing db with
  | nil => exact h1
  | cons p ps ih =>
    exact ih (db.saveItem (encryptedToItem p))
      (DB.saveItem_forall db _ P h1 (h2 p (by simp)))
      (fun i hi => h2 i (by simp [hi]))

/-- The last element of a pulled batch with a given uuid: the one whose
value survives the save loop. -/
def lastMatch (u : String) : List EncryptedItem → Option EncryptedItem
  | [] => none
  | p :: ps =>
      match lastMatch u ps with
      | some i => some i
      | none => if p.uuid == u then some p else none

theorem applyPulled_nil (db : DB) : applyPulled db [] = db := rfl

theorem applyPulled_cons (db : DB) (p : EncryptedItem) (ps : List EncryptedItem) :
    applyPulled db (p :: ps) = applyPulled (db.saveItem (encryptedToItem p)) ps := rfl

theorem lastMatch_cons (u : String) (p : EncryptedItem) (ps : List EncryptedItem) :
    lastMatch u (p :: ps)
      = match lastMatch u ps with
        | some i => some i
        | none => if p.uuid == u then some p else none := rfl

theorem applyPulled_get (ps : List EncryptedItem) (db : DB) (u : String) :
    (applyPulled db ps).get u =
      match lastMatch u ps with
      | some i => some (encryptedToItem i)
      | none => db.get u := by
  induction ps generalizing db with
  | nil => rfl
  | cons p ps ih =>
    rw [applyPulled_cons, ih, lastMatch_cons]
    cases hl : lastMatch u ps with
    | some i => rfl
    | none =>
      by_cases hp : p.uuid = u
      · rw [if_pos (show (p.uuid == u) = true by simp [hp])]
        show (db.saveItem (encryptedToItem p)).get u = some (encryptedToItem p)
        have he : (encryptedToItem p).uuid = u := hp
        rw [← he]
        exact DB.saveItem_get_self db _
      · rw [if_neg (show ¬((p.uuid == u) = true) by simp [hp])]
        show (db.saveItem (encryptedToItem p)).get u = db.get u
        have hne : u ≠ (encryptedToItem p).uuid := by
          show u ≠ p.uuid
          exact fun e => hp e.symm
        exact DB.saveItem_get_other db _ u hne

theorem lastMatch_uuid (u : String) (ps : List EncryptedItem) (j : EncryptedItem)
    (h : lastMatch u ps = some j) : j.uuid = u := by
  induction ps with
  | nil => simp [lastMatch] at h
  | cons p ps ih =>
    rw [lastMatch] at h
    cases hl : lastMatch u ps with
    | some i =>
      rw [hl] at h
      cases h
      exact ih hl
    | none =>
      rw [hl] at h
      by_cases hp : p.uuid = u
      · rw [if_pos (by simp [hp])] at h
        cases h
        exact hp
      · rw [if_neg (by simp [hp])] at h
        cases h

theorem lastMatch_isSome_of_mem (ps : List EncryptedItem) (i : EncryptedItem) (h : i ∈ ps) :
    ∃ j, lastMatch i.uuid ps = some j := by
  induction ps with
  | nil => simp at h
  | cons p ps ih =>
    rcases List.mem_cons.mp h with rfl | h'
    · cases hl : lastMatch i.uuid ps with
      | some j => exact ⟨j, by rw [lastMatch, hl]⟩
      | none => exact ⟨i, by rw [lastMatch, hl]; simp⟩
    · rcases ih h' with ⟨j, hj⟩
      exact ⟨j, by rw [lastMatch, hj]⟩

theorem lastMatch_eq_none (u : String) (ps : List EncryptedItem)
    (h : ∀ j ∈ ps, j.uuid ≠ u) : lastMatch u ps = none := by
  induction ps with
  | nil => rfl
  | cons p ps ih =>
    rw [lastMatch, ih (fun j hj => h j (by simp [hj]))]
    rw [if_neg (by simp [h p (by simp)])]

theorem lastMatch_nodup (ps : List EncryptedItem) (i : EncryptedItem)
    (hnd : (ps.map EncryptedItem.uuid).Nodup) (hi : i ∈ ps) :
    lastMatch i.uuid ps = some i := by
  induction ps with
  | nil => simp at hi
  | cons p ps ih =>
    simp only [List.map_cons, List.nodup_cons] at hnd
    rcases List.mem_cons.mp hi with rfl | h'
    · have hnone : ∀ j ∈ ps, j.uuid ≠ i.uuid := by
        intro j hj he
        exact hnd.1 (he ▸ List.mem_map_of_mem EncryptedItem.uuid hj)
      rw [lastMatch, lastMatch_eq_none _ _ hnone]
      simp
    · rw [lastMatch, ih hnd.2 h']

theorem applyPulled_get_mem (ps : List EncryptedItem) (db : DB) (i : EncryptedItem)
    (hnd : (ps.map EncryptedItem.uuid).Nodup) (hi : i ∈ ps) :
    (applyPulled db ps).get i.uuid = some (encryptedToItem i) := by
  rw [applyPulled_get, lastMatch_nodup ps i hnd hi]

theorem DB.get_mem (db : DB) (u : String) (it : Item) (h : db.get u = some it) :
    it ∈ db.items ∧ it.uuid = u := by
  unfold DB.get at h
  exact ⟨List.mem_of_find?_eq_some h, by simpa using List.find?_some h⟩

/-! Uuid-nodup preservation. -/

theorem DB.saveItem_uuid_nodup (db : DB) (it : Item)
    (h : (db.items.map Item.uuid).Nodup) :
    ((db.saveItem it).items.map Item.uuid).Nodup := by
  unfold DB.saveItem
  split
  · have he : (db.items.map (fun x => if x.uuid == it.uuid then it else x)).map Item.uuid
        = db.items.map Item.uuid := by
      rw [List.map_map]
      apply List.map_congr_left
      intro y _
      by_cases hyu : y.uuid = it.uuid
      · simp [Function.comp, hyu]
      · simp [Function.comp, hyu]
    rw [he]
    exact h
  · rename_i hany
    have hnotin : it.uuid ∉ db.items.map Item.uuid := by
      intro hmem
      rcases List.mem_map.mp hmem with ⟨y, hy, hyu⟩
      exact hany (List.any_eq_true.mpr ⟨y, hy, by simp [hyu]⟩)
    simp only [List.map_append, List.map_cons, List.map_nil]
    rw [List.nodup_append]
    exact ⟨h, List.nodup_singleton _, by simpa using hnotin⟩

theorem applyPulled_uuid_nodup (ps : List EncryptedItem) (db : DB)
    (h : (db.items.map Item.uuid).Nodup) :
    ((applyPulled db ps).items.map Item.uuid).Nodup := by
  induction ps generalizing db with
  | nil => exact h
  | cons p ps ih => exact ih _ (DB.saveItem_uuid_nodup db _ h)

/-! Characterization of the dirty-clearing loop. -/

/-- Pointwise effect of the dirty-clearing loop on one stored record. -/
def clearMark (L : List Item) (y : Item) : Item :=
  if L.any (fun x => y.uuid == x.uuid) then { y with dirty := false, dirtiedDate := 0 } else y

theorem clearDirty_nil (db : DB) : clearDirty db [] = db := rfl

theorem clearDirty_cons (db : DB) (x : Item) (L : List Item) :
    clearDirty db (x :: L)
      = clearDirty ((db.updateDirty x.uuid false).updateDirtiedDate x.uuid 0) L := rfl

theorem updateBoth_items (db : DB) (x : Item) :
    ((db.updateDirty x.uuid false).updateDirtiedDate x.uuid 0).items
      = db.items.map (fun y =>
          if y.uuid == x.uuid then { y with dirty := false, dirtiedDate := 0 } else y) := by
  unfold DB.updateDirty DB.updateDirtiedDate
  simp only [List.map_map]
  apply List.map_congr_left
  intro y _
  by_cases h : y.uuid = x.uuid
  · have hb : (y.uuid == x.uuid) = true := by simp [h]
    simp only [Function.comp_apply, hb, if_true]
  · have hb : (y.uuid == x.uuid) = false := by simp [h]
    simp only [Function.comp_apply, hb, Bool.false_eq_true, if_false]

theorem clearDirty_items (L : List Item) (db : DB) :
    (clearDirty db L).items = db.items.map (clearMark L) := by
  induction L generalizing db with
  | nil =>
    rw [clearDirty_nil]
    have hid : db.items.map (clearMark []) = db.items.map (fun y => y) := by
      apply List.map_congr_left
      intro y _
      simp [clearMark]
    rw [hid, List.map_id']
  | cons x L ih =>
    rw [clearDirty_cons, ih]
    have hstep := updateBoth_items db x
    rw [show ((db.updateDirty x.uuid false).updateDirtiedDate x.uuid 0).items
          = db.items.map (fun y =>
              if y.uuid == x.uuid then { y with dirty := false, dirtiedDate := 0 } else y)
        from hstep]
    rw [List.map_map]
    apply List.map_congr_left
    intro y _
    by_cases h : y.uuid = x.uuid
    · have hb : (y.uuid == x.uuid) = true := by simp [h]
      simp only [Function.comp_apply, hb, if_true]
      unfold clearMark
      have hc2 : ((x :: L).any (fun x' => y.uuid == x'.uuid)) = true := by simp [h]
      rw [hc2, if_pos rfl]
      split <;> rfl
    · have hb : (y.uuid == x.uuid) = false := by simp [h]
      simp only [Function.comp_apply, hb, Bool.false_eq_true, if_false]
      unfold clearMark
      have hc2 : ((x :: L).any (fun x' => y.uuid == x'.uuid))
          = (L.any (fun x' => y.uuid == x'.uuid)) := by
        simp [h]
      rw [hc2]

theorem clearDirty_findDirty_clean (db : DB) :
    ∀ it ∈ (clearDirty db db.findDirty).items, it.dirty = false := by
  rw [clearDirty_items]
  intro it hit
  rcases List.mem_map.mp hit with ⟨y, hy, rfl⟩
  unfold clearMark
  split
  · rfl
  · rename_i hany
    cases hdy : y.dirty with
    | false => rfl
    | true =>
      exact absurd
        (List.any_eq_true.mpr ⟨y, List.mem_filter.mpr ⟨hy, by simp [hdy]⟩, by simp⟩)
        hany

theorem clearDirty_findDirty_clean0 (db : DB) (hinv : db.cleanInv) :
    ∀ it ∈ (clearDirty db db.findDirty).items, it.dirty = false ∧ it.dirtiedDate = 0 := by
  rw [clearDirty_items]
  intro it hit
  rcases List.mem_map.mp hit with ⟨y, hy, rfl⟩
  unfold clearMark
  split
  · exact ⟨rfl, rfl⟩
  · rename_i hany
    cases hdy : y.dirty with
    | false => exact ⟨rfl, hinv y hy hdy⟩
    | true =>
      exact absurd
        (List.any_eq_true.mpr ⟨y, List.mem_filter.mpr ⟨hy, by simp [hdy]⟩, by simp⟩)
        hany

/-! Path lemmas for `Sync`. -/

theorem Sync_handle (openStore : String → DB) (exchange : Exchange) (si : SyncInput) (db : DB)
    (hs : si.session.valid = true) (hp : si.dbPath = "") (hdb : si.db = some db) :
    Sync openStore exchange si = reconcile exchange si.session db := by
  simp [Sync, hs, hp, hdb]

theorem Sync_bootstrap (openStore : String → DB) (exchange : Exchange) (si : SyncInput)
    (hs : si.session.valid = true) (hdb : si.db = none) (hp : si.dbPath ≠ "") :
    Sync openStore exchange si =
      { output := { SyncOutput.empty with
                    db := some (initialiseDB exchange si.session (openStore si.dbPath)).1 },
        err := (initialiseDB exchange si.session (openStore si.dbPath)).2,
        store := some (initialiseDB exchange si.session (openStore si.dbPath)).1 } := by
  simp [Sync, hs, hdb, hp]

theorem reconcile_success (exchange : Exchange) (s : Session) (db : DB) (gSO : GosnSyncOutput)
    (hx : exchange (reconcileGsi s db) = some gSO) :
    reconcile exchange s db =
      { output := { items := gSO.items, savedItems := gSO.savedItems, unsaved := gSO.unsaved,
                    db := some ((applyPulled (clearDirty db db.findDirty) gSO.items).saveToken gSO.syncToken) },
        err := none,
        store := some ((applyPulled (clearDirty db db.findDirty) gSO.items).saveToken gSO.syncToken) } := by
  unfold reconcile
  rw [hx]

theorem reconcile_failure (exchange : Exchange) (s : Session) (db : DB)
    (hx : exchange (reconcileGsi s db) = none) :
    reconcile exchange s db =
      { output := SyncOutput.empty, err := some SnErr.remoteError, store := some db } := by
  unfold reconcile
  rw [hx]

/-! Concrete fixtures reused by witnesses and counterexamples. -/

def emptyDB : DB := { items := [], tokens := [] }

def osEmpty : String → DB := fun _ => emptyDB

def sessionOK : Session := { valid := true }

def exchFail : Exchange := fun _ => none

/-- An exchange that accepts nothing, pulls nothing, and returns the given
token. -/
def exchToken (t : String) : Exchange :=
  fun _ => some { items := [], savedItems := [], unsaved := [], syncToken := t }

def itemA : Item :=
  { uuid := "A", content := "c", contentType := "Note", encItemKey := "k",
    deleted := false, createdAt := "", updatedAt := "", dirty := true, dirtiedDate := 5 }

def dbA : DB := { items := [itemA], tokens := [] }

/-- An exchange that rejects the whole push batch (echoes it in `Unsaved`),
pulls nothing, and returns token `"t1"`. -/
def exchUnsavedAll : Exchange :=
  fun gsi => some { items := [], savedItems := [], unsaved := gsi.items, syncToken := "t1" }

def itemB : Item :=
  { uuid := "B", content := "old", contentType := "Note", encItemKey := "k",
    deleted := false, createdAt := "", updatedAt := "", dirty := true, dirtiedDate := 7 }

def dbB : DB := { items := [itemB], tokens := [] }

def encBnew : EncryptedItem :=
  { uuid := "B", content := "new", contentType := "Note", encItemKey := "k",
    deleted := false, createdAt := "", updatedAt := "" }

/-- An exchange that rejects the whole push batch, pulls a newer version of
record "B", and returns token `"t1"`. -/
def exchPullB : Exchange :=
  fun gsi => some { items := [encBnew], savedItems := [], unsaved := gsi.items, syncToken := "t1" }

def dbTwoTokens : DB := { items := [], tokens := ["t1", "t2"] }

/-! Claim theorems. -/

/-- Claim C1, counterexample: record "A" is in the push batch and comes
back in `Unsaved` (so it was never acknowledged), yet after the successful
cycle its stored pending flag is false and its pending date zero — it does
not keep `pending_write=true` as the claim states. -/
theorem C1_counterexample :
    (Sync osEmpty exchUnsavedAll
        { session := sessionOK, db := some dbA, dbPath := "" }).output.unsaved
      = [itemToEncrypted itemA] ∧
    (Sync osEmpty exchUnsavedAll
        { session := sessionOK, db := some dbA, dbPath := "" }).store
      = some { items := [{ itemA with dirty := false, dirtiedDate := 0 }], tokens := ["t1"] } ∧
    ({ itemA with dirty := false, dirtiedDate := 0 } : Item).dirty = false := by
  refine ⟨rfl, ?_, rfl⟩
  rfl

/-- Claim C1, amended: after a successful reconcile cycle with an existing
handle, the pending flag is cleared for every record of the push batch —
whether acknowledged or not; indeed every stored record ends clean — so the
push batch of the next cycle is empty and unacknowledged records are not
retried. -/
theorem C1_amended_all_cleared (openStore : String → DB) (exchange : Exchange)
    (si : SyncInput) (db : DB) (gSO : GosnSyncOutput)
    (hs : si.session.valid = true) (hp : si.dbPath = "") (hdb : si.db = some db)
    (hx : exchange (reconcileGsi si.session db) = some gSO) :
    ∃ db', (Sync openStore exchange si).store = some db' ∧
      (∀ it ∈ db'.items, it.dirty = false) ∧
      db'.findDirty = [] := by
  rw [Sync_handle openStore exchange si db hs hp hdb,
      reconcile_success exchange si.session db gSO hx]
  have hall : ∀ it ∈ ((applyPulled (clearDirty db db.findDirty) gSO.items).saveToken
      gSO.syncToken).items, it.dirty = false := by
    intro it hit
    rw [saveToken_items] at hit
    exact applyPulled_forall gSO.items _ (fun x => x.dirty = false)
      (clearDirty_findDirty_clean db) (fun i _ => rfl) it hit
  refine ⟨_, rfl, hall, ?_⟩
  unfold DB.findDirty
  rw [List.filter_eq_nil_iff]
  intro a ha
  simp [hall a ha]

/-- Witness for the amended C1 at a concrete input. -/
theorem C1_amended_witness :
    ∃ db', (Sync osEmpty exchUnsavedAll
        { session := sessionOK, db := some dbA, dbPath := "" }).store = some db' ∧
      (∀ it ∈ db'.items, it.dirty = false) ∧
      db'.findDirty = [] :=
  C1_amended_all_cleared osEmpty exchUnsavedAll _ dbA
    { items := [], savedItems := [], unsaved := [itemToEncrypted itemA], syncToken := "t1" }
    rfl rfl rfl rfl

/-- Claim C2, refutation (code bug): bootstrap stores token "t1"; the next
successful reconcile cycle's exchange returns token "t2"; because the
stored token record is keyed by the token string itself, the save adds a
second record instead of replacing the singleton, and the store ends up
holding two continuation tokens. -/
theorem C2_two_tokens_after_two_cycles :
    (Sync osEmpty (exchToken "t2")
        { session := sessionOK,
          db := (Sync osEmpty (exchToken "t1")
                   { session := sessionOK, db := none, dbPath := "p" }).store,
          dbPath := "" }).store
      = some { items := [], tokens := ["t1", "t2"] } := by
  rfl

/-- Claim C3, refutation (code bug): with two stored sync tokens the Go
code builds the invariant-violation error but falls through without
returning it; the subsequent successful exchange overwrites the error
variable, so the call reports no error at all and even appends a third
token. -/
theorem C3_invariant_error_swallowed :
    (Sync osEmpty (exchToken "t3")
        { session := sessionOK, db := some dbTwoTokens, dbPath := "" }).err = none ∧
    (Sync osEmpty (exchToken "t3")
        { session := sessionOK, db := some dbTwoTokens, dbPath := "" }).store
      = some { items := [], tokens := ["t1", "t2", "t3"] } := by
  constructor <;> rfl

/-- Claim C4, counterexample: record "B" has a local pending edit that is
never acknowledged (it comes back in `Unsaved`) while a remote version of
"B" is pulled in the same cycle; after the cycle the stored record carries
the pulled content AND a cleared pending flag — the flag does not survive
the upsert, so the local edit will not be re-pushed later. -/
theorem C4_counterexample :
    (Sync osEmpty exchPullB
        { session := sessionOK, db := some dbB, dbPath := "" }).output.unsaved
      = [itemToEncrypted itemB] ∧
    (Sync osEmpty exchPullB
        { session := sessionOK, db := some dbB, dbPath := "" }).store
      = some { items := [encryptedToItem encBnew], tokens := ["t1"] } ∧
    (encryptedToItem encBnew).content = "new" ∧
    (encryptedToItem encBnew).dirty = false := by
  refine ⟨rfl, ?_, rfl, rfl⟩
  rfl

/-- Claim C4, amended: every pulled record is upserted with the remote
content and `pending_write=false`; for a pulled batch without duplicate ids
the stored record equals the pulled one exactly, and after the cycle no
stored record carries a pending flag — the flag of a never-acknowledged
local edit does not survive. -/
theorem C4_amended_pull_overwrites (openStore : String → DB) (exchange : Exchange)
    (si : SyncInput) (db : DB) (gSO : GosnSyncOutput)
    (hs : si.session.valid = true) (hp : si.dbPath = "") (hdb : si.db = some db)
    (hx : exchange (reconcileGsi si.session db) = some gSO)
    (hnd : (gSO.items.map EncryptedItem.uuid).Nodup) :
    ∃ db', (Sync openStore exchange si).store = some db' ∧
      (∀ i ∈ gSO.items, db'.get i.uuid = some (encryptedToItem i)) ∧
      (∀ it ∈ db'.items, it.dirty = false) := by
  rw [Sync_handle openStore exchange si db hs hp hdb,
      reconcile_success exchange si.session db gSO hx]
  refine ⟨_, rfl, ?_, ?_⟩
  · intro i hi
    rw [saveToken_get]
    exact applyPulled_get_mem gSO.items _ i hnd hi
  · intro it hit
    rw [saveToken_items] at hit
    exact applyPulled_forall gSO.items _ (fun x => x.dirty = false)
      (clearDirty_findDirty_clean db) (fun i _ => rfl) it hit

/-- Witness for the amended C4 at a concrete input. -/
theorem C4_amended_witness :
    ∃ db', (Sync osEmpty exchPullB
        { session := sessionOK, db := some dbB, dbPath := "" }).store = some db' ∧
      (∀ i ∈ [encBnew], db'.get i.uuid = some (encryptedToItem i)) ∧
      (∀ it ∈ db'.items, it.dirty = false) :=
  C4_amended_pull_overwrites osEmpty exchPullB _ dbB
    { items := [encBnew], savedItems := [], unsaved := [itemToEncrypted itemB], syncToken := "t1" }
    rfl rfl rfl rfl (by simp)

/-- Claim C5: if the remote exchange fails, `Sync` on an existing handle
returns the remote error with the store exactly as it was before the call —
no record mutated, no pending flag cleared, no token written — and an empty
output, so nothing is reported as acknowledged. -/
theorem C5_remote_failure_leaves_store_unchanged (openStore : String → DB)
    (exchange : Exchange) (si : SyncInput) (db : DB)
    (hs : si.session.valid = true) (hp : si.dbPath = "") (hdb : si.db = some db)
    (hx : exchange (reconcileGsi si.session db) = none) :
    Sync openStore exchange si =
      { output := SyncOutput.empty, err := some SnErr.remoteError, store := some db } := by
  rw [Sync_handle openStore exchange si db hs hp hdb,
      reconcile_failure exchange si.session db hx]

/-- Witness for C5 at a concrete input. -/
theorem C5_witness :
    Sync osEmpty exchFail { session := sessionOK, db := some emptyDB, dbPath := "" }
      = { output := SyncOutput.empty, err := some SnErr.remoteError, store := some emptyDB } :=
  C5_remote_failure_leaves_store_unchanged osEmpty exchFail _ emptyDB rfl rfl rfl rfl

/-- Claim C6: `Sync` checks its preconditions in order — session validity
first (failing with the invalid-session error even when the handle/path
configuration is also wrong), then the handle/path configuration, where
both provided and neither provided are the two configuration errors — and
every precondition failure returns immediately with the store unchanged
and without consulting the exchange. -/
theorem C6_precondition_order (openStore : String → DB) (exch1 exch2 : Exchange)
    (si : SyncInput) :
    (si.session.valid = false →
      Sync openStore exch1 si =
        { output := SyncOutput.empty, err := some SnErr.invalidSession, store := si.db }) ∧
    (si.session.valid = true → si.db.isSome = true → si.dbPath ≠ "" →
      Sync openStore exch1 si =
        { output := SyncOutput.empty, err := some SnErr.dbAndPathProvided, store := si.db }) ∧
    (si.session.valid = true → si.db = none → si.dbPath = "" →
      Sync openStore exch1 si =
        { output := SyncOutput.empty, err := some SnErr.dbOrPathRequired, store := none }) ∧
    SnErr.dbAndPathProvided.isConfigurationError = true ∧
    SnErr.dbOrPathRequired.isConfigurationError = true ∧
    ((si.session.valid = false ∨ (si.db.isSome = true ∧ si.dbPath ≠ "") ∨
        (si.db = none ∧ si.dbPath = "")) →
      Sync openStore exch1 si = Sync openStore exch2 si) := by
  refine ⟨?_, ?_, ?_, rfl, rfl, ?_⟩
  · intro h
    simp [Sync, h]
  · intro hs hdb hp
    simp [Sync, hs, hdb, hp]
  · intro hs hdb hp
    simp [Sync, hs, hdb, hp]
  · rintro (h | ⟨h1, h2⟩ | ⟨h1, h2⟩) <;> simp [Sync, *]

/-- Witness for C6 at concrete inputs, one per precondition case. -/
theorem C6_witness :
    (Sync osEmpty exchFail
        { session := { valid := false }, db := some emptyDB, dbPath := "p" }
      = { output := SyncOutput.empty, err := some SnErr.invalidSession,
          store := some emptyDB }) ∧
    (Sync osEmpty exchFail { session := sessionOK, db := some emptyDB, dbPath := "p" }
      = { output := SyncOutput.empty, err := some SnErr.dbAndPathProvided,
          store := some emptyDB }) ∧
    (Sync osEmpty exchFail { session := sessionOK, db := none, dbPath := "" }
      = { output := SyncOutput.empty, err := some SnErr.dbOrPathRequired, store := none }) ∧
    (Sync osEmpty exchFail { session := sessionOK, db := none, dbPath := "" }
      = Sync osEmpty (exchToken "z") { session := sessionOK, db := none, dbPath := "" }) :=
  ⟨(C6_precondition_order osEmpty exchFail exchFail _).1 rfl,
   (C6_precondition_order osEmpty exchFail exchFail _).2.1 rfl rfl (by decide),
   (C6_precondition_order osEmpty exchFail exchFail _).2.2.1 rfl rfl rfl,
   (C6_precondition_order osEmpty exchFail (exchToken "z") _).2.2.2.2.2
     (Or.inr (Or.inr ⟨rfl, rfl⟩))⟩

/-- Claim C7: a reconcile over an existing handle with zero pending records
whose exchange pulls zero records leaves every stored record exactly as it
was; only the continuation-token write happens, because the post-exchange
steps run even for an empty push batch. -/
theorem C7_noop_except_token (openStore : String → DB) (exchange : Exchange)
    (si : SyncInput) (db : DB) (gSO : GosnSyncOutput)
    (hs : si.session.valid = true) (hp : si.dbPath = "") (hdb : si.db = some db)
    (hdirty : db.findDirty = []) (hx : exchange (reconcileGsi si.session db) = some gSO)
    (hpull : gSO.items = []) :
    Sync openStore exchange si =
      { output := { items := [], savedItems := gSO.savedItems, unsaved := gSO.unsaved,
                    db := some (db.saveToken gSO.syncToken) },
        err := none,
        store := some (db.saveToken gSO.syncToken) } ∧
    (db.saveToken gSO.syncToken).items = db.items := by
  constructor
  · rw [Sync_handle openStore exchange si db hs hp hdb,
        reconcile_success exchange si.session db gSO hx, hdirty, hpull]
    rfl
  · rw [saveToken_items]

/-- Witness for C7 at a concrete input. -/
theorem C7_witness :
    (Sync osEmpty (exchToken "t") { session := sessionOK, db := some emptyDB, dbPath := "" }
      = { output := { items := [], savedItems := [], unsaved := [],
                      db := some (emptyDB.saveToken "t") },
          err := none,
          store := some (emptyDB.saveToken "t") }) ∧
    (emptyDB.saveToken "t").items = emptyDB.items :=
  C7_noop_except_token osEmpty (exchToken "t") _ emptyDB
    { items := [], savedItems := [], unsaved := [], syncToken := "t" }
    rfl rfl rfl rfl rfl rfl

/-- Claim C8: the dirty-flag invariant (`pending_write=false` implies zero
`pending_since`) is preserved by a successful reconcile cycle, after which
every stored record — in particular every record whose id appears in
`acknowledged` — is clean; bootstrap preserves the invariant as well, and
the public converter produces only clean records. -/
theorem C8_clean_invariant :
    (∀ (openStore : String → DB) (exchange : Exchange) (si : SyncInput) (db : DB)
        (gSO : GosnSyncOutput),
      si.session.valid = true → si.dbPath = "" → si.db = some db →
      exchange (reconcileGsi si.session db) = some gSO → db.cleanInv →
      ∃ db', (Sync openStore exchange si).store = some db' ∧ db'.cleanInv ∧
        ∀ it ∈ db'.items, it.uuid ∈ gSO.savedItems.map EncryptedItem.uuid →
          it.dirty = false) ∧
    (∀ (openStore : String → DB) (exchange : Exchange) (si : SyncInput),
      si.session.valid = true → si.db = none → si.dbPath ≠ "" →
      (openStore si.dbPath).cleanInv →
      ∀ db', (Sync openStore exchange si).store = some db' → db'.cleanInv) ∧
    (∀ items : List EncryptedItem, ∀ it ∈ ConvertItemsToPersistItems items,
      it.dirty = false ∧ it.dirtiedDate = 0) := by
  refine ⟨?_, ?_, ?_⟩
  · intro openStore exchange si db gSO hs hp hdb hx hinv
    rw [Sync_handle openStore exchange si db hs hp hdb,
        reconcile_success exchange si.session db gSO hx]
    have hall : ∀ it ∈ ((applyPulled (clearDirty db db.findDirty) gSO.items).saveToken
        gSO.syncToken).items, it.dirty = false ∧ it.dirtiedDate = 0 := by
      intro it hit
      rw [saveToken_items] at hit
      exact applyPulled_forall gSO.items _ (fun x => x.dirty = false ∧ x.dirtiedDate = 0)
        (clearDirty_findDirty_clean0 db hinv) (fun i _ => ⟨rfl, rfl⟩) it hit
    exact ⟨_, rfl, fun it hit _ => (hall it hit).2, fun it hit _ => (hall it hit).1⟩
  · intro openStore exchange si hs hdb hp hinv db' hstore
    rw [Sync_bootstrap openStore exchange si hs hdb hp] at hstore
    have hstore' : some (initialiseDB exchange si.session (openStore si.dbPath)).1
        = some db' := hstore
    obtain rfl := Option.some.inj hstore'
    cases hx : exchange (bootstrapGsi si.session) with
    | none =>
      have heq : (initialiseDB exchange si.session (openStore si.dbPath)).1
          = openStore si.dbPath := by
        unfold initialiseDB
        rw [hx]
      rw [heq]
      exact hinv
    | some gSO =>
      have heq : (initialiseDB exchange si.session (openStore si.dbPath)).1
          = (applyPulled (openStore si.dbPath) gSO.items).saveToken gSO.syncToken := by
        unfold initialiseDB
        rw [hx]
      rw [heq]
      intro it hit h0
      rw [saveToken_items] at hit
      exact applyPulled_forall gSO.items _ (fun x => x.dirty = false → x.dirtiedDate = 0)
        hinv (fun i _ _ => rfl) it hit h0
  · intro items it hit
    unfold ConvertItemsToPersistItems at hit
    rcases List.mem_map.mp hit with ⟨i, _, rfl⟩
    exact ⟨rfl, rfl⟩

/-- Witness for C8 at concrete inputs, one per conjunct. -/
theorem C8_witness :
    (∃ db', (Sync osEmpty (exchToken "t")
        { session := sessionOK, db := some dbA, dbPath := "" }).store = some db' ∧
      db'.cleanInv ∧
      ∀ it ∈ db'.items,
        it.uuid ∈ ([] : List EncryptedItem).map EncryptedItem.uuid → it.dirty = false) ∧
    (({ items := [], tokens := ["t"] } : DB).cleanInv) ∧
    (∀ it ∈ ConvertItemsToPersistItems [encBnew], it.dirty = false ∧ it.dirtiedDate = 0) :=
  ⟨C8_clean_invariant.1 osEmpty (exchToken "t") _ dbA
      { items := [], savedItems := [], unsaved := [], syncToken := "t" }
      rfl rfl rfl rfl
      (fun it hit h0 => absurd h0 (by rw [List.mem_singleton.mp hit]; decide)),
   C8_clean_invariant.2.1 osEmpty (exchToken "t")
      { session := sessionOK, db := none, dbPath := "p" }
      rfl rfl (by decide)
      (fun it hit => absurd hit (List.not_mem_nil it))
      { items := [], tokens := ["t"] } rfl,
   C8_clean_invariant.2.2 [encBnew]⟩

/-- Claim C9: bootstrapping an already-populated store location a second
time, against the same remote state, yields the same record set keyed by
id and creates no duplicate records. -/
theorem C9_bootstrap_idempotent (exchange : Exchange) (s : Session) (d : DB)
    (hnd : (d.items.map Item.uuid).Nodup) :
    (∀ u, ((initialiseDB exchange s (initialiseDB exchange s d).1).1).get u
        = ((initialiseDB exchange s d).1).get u) ∧
    ((((initialiseDB exchange s (initialiseDB exchange s d).1).1).items.map Item.uuid).Nodup ∧
      (((initialiseDB exchange s d).1).items.map Item.uuid).Nodup) := by
  cases hx : exchange (bootstrapGsi s) with
  | none =>
    have h1 : (initialiseDB exchange s d).1 = d := by
      unfold initialiseDB
      rw [hx]
    rw [h1, h1]
    exact ⟨fun u => rfl, hnd, hnd⟩
  | some gSO =>
    have h2 : ∀ e : DB, (initialiseDB exchange s e).1
        = (applyPulled e gSO.items).saveToken gSO.syncToken := by
      intro e
      unfold initialiseDB
      rw [hx]
    have hn1 : (((initialiseDB exchange s d).1).items.map Item.uuid).Nodup := by
      rw [h2, saveToken_items]
      exact applyPulled_uuid_nodup gSO.items d hnd
    constructor
    · intro u
      rw [h2 ((initialiseDB exchange s d).1), h2 d, saveToken_get, saveToken_get,
          applyPulled_get, applyPulled_get]
      cases hl : lastMatch u gSO.items with
      | some i => rfl
      | none =>
        rw [saveToken_get, applyPulled_get, hl]
    · refine ⟨?_, hn1⟩
      rw [h2 ((initialiseDB exchange s d).1), saveToken_items]
      exact applyPulled_uuid_nodup gSO.items _ hn1

/-- Witness for C9 at a concrete input, with the record-set equality
projected at the stored uuid. -/
theorem C9_witness :
    (((initialiseDB (exchToken "t") sessionOK
        (initialiseDB (exchToken "t") sessionOK dbA).1).1).get "A"
      = ((initialiseDB (exchToken "t") sessionOK dbA).1).get "A") ∧
    ((((initialiseDB (exchToken "t") sessionOK
        (initialiseDB (exchToken "t") sessionOK dbA).1).1).items.map Item.uuid).Nodup ∧
      (((initialiseDB (exchToken "t") sessionOK dbA).1).items.map Item.uuid).Nodup) :=
  ⟨(C9_bootstrap_idempotent (exchToken "t") sessionOK dbA (by decide)).1 "A",
   (C9_bootstrap_idempotent (exchToken "t") sessionOK dbA (by decide)).2⟩

/-- Claim C10: when `Sync` is invoked without an existing handle, the
returned `SyncOutput` carries only the new handle: its `Items`,
`SavedItems` and `Unsaved` fields are empty on every path, and the records
pulled by a successful bootstrap are observable only through the store,
where each pulled id is present as a clean record. -/
theorem C10_bootstrap_output_empty (openStore : String → DB) (exchange : Exchange)
    (si : SyncInput) (hdb : si.db = none) :
    ((Sync openStore exchange si).output.items = [] ∧
      (Sync openStore exchange si).output.savedItems = [] ∧
      (Sync openStore exchange si).output.unsaved = []) ∧
    (∀ gSO : GosnSyncOutput, si.session.valid = true → si.dbPath ≠ "" →
      exchange (bootstrapGsi si.session) = some gSO →
      ∀ i ∈ gSO.items, ∃ db' it, (Sync openStore exchange si).store = some db' ∧
        it ∈ db'.items ∧ it.uuid = i.uuid ∧ it.dirty = false) := by
  constructor
  · cases hs : si.session.valid with
    | false => simp [Sync, hs, SyncOutput.empty]
    | true =>
      by_cases hp : si.dbPath = ""
      · simp [Sync, hs, hdb, hp, SyncOutput.empty]
      · rw [Sync_bootstrap openStore exchange si hs hdb hp]
        exact ⟨rfl, rfl, rfl⟩
  · intro gSO hs hp hx i hi
    rw [Sync_bootstrap openStore exchange si hs hdb hp]
    have hinit : (initialiseDB exchange si.session (openStore si.dbPath)).1
        = (applyPulled (openStore si.dbPath) gSO.items).saveToken gSO.syncToken := by
      unfold initialiseDB
      rw [hx]
    rcases lastMatch_isSome_of_mem gSO.items i hi with ⟨j, hj⟩
    have hget : ((applyPulled (openStore si.dbPath) gSO.items).saveToken gSO.syncToken).get i.uuid
        = some (encryptedToItem j) := by
      rw [saveToken_get, applyPulled_get, hj]
    have hmem := DB.get_mem _ _ _ hget
    refine ⟨(initialiseDB exchange si.session (openStore si.dbPath)).1,
      encryptedToItem j, rfl, ?_, hmem.2, rfl⟩
    rw [hinit]
    exact hmem.1

/-- Witness for C10 at a concrete input. -/
theorem C10_witness :
    ((Sync osEmpty exchPullB
        { session := sessionOK, db := none, dbPath := "p" }).output.items = [] ∧
      (Sync osEmpty exchPullB
        { session := sessionOK, db := none, dbPath := "p" }).output.savedItems = [] ∧
      (Sync osEmpty exchPullB
        { session := sessionOK, db := none, dbPath := "p" }).output.unsaved = []) ∧
    (∃ db' it, (Sync osEmpty exchPullB
        { session := sessionOK, db := none, dbPath := "p" }).store = some db' ∧
      it ∈ db'.items ∧ it.uuid = encBnew.uuid ∧ it.dirty = false) :=
  ⟨(C10_bootstrap_output_empty osEmpty exchPullB _ rfl).1,
   (C10_bootstrap_output_empty osEmpty exchPullB _ rfl).2
     { items := [encBnew], savedItems := [], unsaved := [], syncToken := "t1" }
     rfl (by decide) rfl encBnew (by simp)⟩

end SnPersist
